import Mathlib

/-!
Verification of the camera-control and scene-setup layer in
`graphics/graphics_canvas.py`.

The module is a thin controller over the vpython toolkit: it reads the set of
held keys once per tick and rewrites the camera position, camera axis and scene
up vector.  We embed the scene state as a record of real 3-vectors and the
handler as a pure function from a state and a key list to a new state,
translating the Python line by line.  The vpython vector primitives
(`cross`, `mag`, `norm`, magnitude assignment, `rotate`) are given their
documented real-arithmetic semantics; floating point is modelled by `ℝ`.

The file is organised as definitions first (data model and the embedded
operations), then the supporting lemmas, then one theorem per specification
claim together with its witness or counterexample.
-/

noncomputable section

/-! ### Data model and embedded operations -/

/-- Three-component real vector: the model of a vpython `vector`. -/
@[ext] structure Vec3 where
  x : ℝ
  y : ℝ
  z : ℝ

namespace Vec3

instance : Zero Vec3 := ⟨⟨0, 0, 0⟩⟩

instance : Add Vec3 := ⟨fun a b => ⟨a.x + b.x, a.y + b.y, a.z + b.z⟩⟩

instance : Neg Vec3 := ⟨fun a => ⟨-a.x, -a.y, -a.z⟩⟩

instance : Sub Vec3 := ⟨fun a b => ⟨a.x - b.x, a.y - b.y, a.z - b.z⟩⟩

instance : SMul ℝ Vec3 := ⟨fun c a => ⟨c * a.x, c * a.y, c * a.z⟩⟩

instance : AddCommGroup Vec3 where
  add_assoc a b c := by ext <;> exact add_assoc ..
  zero_add a := by ext <;> exact zero_add ..
  add_zero a := by ext <;> exact add_zero ..
  add_comm a b := by ext <;> exact add_comm ..
  neg_add_cancel a := by ext <;> exact neg_add_cancel ..
  sub_eq_add_neg a b := by ext <;> exact sub_eq_add_neg ..
  nsmul := nsmulRec
  zsmul := zsmulRec

instance : Module ℝ Vec3 where
  one_smul a := by ext <;> exact one_mul ..
  mul_smul c d a := by ext <;> exact mul_assoc ..
  smul_zero c := by ext <;> exact mul_zero ..
  smul_add c a b := by ext <;> exact mul_add ..
  add_smul c d a := by ext <;> exact add_mul ..
  zero_smul a := by ext <;> exact zero_mul ..

/-- vpython `dot`: the Euclidean inner product. -/
def dot (a b : Vec3) : ℝ := a.x * b.x + a.y * b.y + a.z * b.z

/-- vpython `cross`: the right-handed cross product. -/
def cross (a b : Vec3) : Vec3 :=
  ⟨a.y * b.z - a.z * b.y, a.z * b.x - a.x * b.z, a.x * b.y - a.y * b.x⟩

/-- vpython `.mag`: the Euclidean magnitude. -/
def mag (v : Vec3) : ℝ := Real.sqrt (v.dot v)

/-- vpython `norm` / `.hat`: the unit vector in the direction of `v`; the zero
vector maps to the zero vector (in `ℝ`, `1 / 0 = 0` gives this for free). -/
def norm (v : Vec3) : Vec3 := (1 / v.mag) • v

/-- vpython magnitude assignment `v.mag = m`: rescale `v` to magnitude `m`
keeping its direction. -/
def withMag (v : Vec3) (m : ℝ) : Vec3 := m • v.norm

/-- vpython `v.rotate(angle, axis)`: rotation of `v` by `angle` about the
direction of `axis` (vpython builds the standard rotation matrix about the
normalised axis; this is the same map in Rodrigues form). -/
def rotate (v : Vec3) (angle : ℝ) (axis : Vec3) : Vec3 :=
  let u := axis.norm
  Real.cos angle • v + Real.sin angle • (u.cross v)
    + ((1 - Real.cos angle) * (u.dot v)) • u

end Vec3

/-- `vector(a, b, c)` of vpython. -/
def vector (a b c : ℝ) : Vec3 := ⟨a, b, c⟩

/-- Modelled from the spec: `x_axis_vector` of `graphics.common_functions`
(that file is not under src); the principal x axis unit vector. -/
def x_axis_vector : Vec3 := vector 1 0 0

/-- Modelled from the spec: `y_axis_vector` of `graphics.common_functions`
(that file is not under src); the principal y axis unit vector. -/
def y_axis_vector : Vec3 := vector 0 1 0

/-- Modelled from the spec: `z_axis_vector` of `graphics.common_functions`
(that file is not under src); the principal z axis unit vector, the scene up
direction after `convert_grid_to_z_up`. -/
def z_axis_vector : Vec3 := vector 0 0 1

/-- Python `math.radians`: degrees to radians. -/
def radians (deg : ℝ) : ℝ := deg * Real.pi / 180

/-- The scene state touched by the camera controller: camera position, camera
axis (`scene.camera.axis`), the up vector (`scene.up`, which vpython shares
with `scene.camera.up`), and the focus point `scene.center`. -/
structure Scene where
  cam_pos : Vec3
  cam_axis : Vec3
  up : Vec3
  center : Vec3

/-- The PANNING section of `handle_keyboard_inputs` (source lines 165-176):
one `if` per pan key, each adding or subtracting `pan_amount` times the
corresponding camera-relative basis vector, threading `cam_pos`. -/
def panSection (keys : List String) (pan_amount : ℝ)
    (cam_axis cam_side_axis cam_up cam_pos : Vec3) : Vec3 :=
  let cam_pos := if "w" ∈ keys then cam_pos + pan_amount • cam_axis else cam_pos
  let cam_pos := if "s" ∈ keys then cam_pos - pan_amount • cam_axis else cam_pos
  let cam_pos := if "a" ∈ keys then cam_pos + pan_amount • cam_side_axis else cam_pos
  let cam_pos := if "d" ∈ keys then cam_pos - pan_amount • cam_side_axis else cam_pos
  let cam_pos := if " " ∈ keys then cam_pos + pan_amount • cam_up else cam_pos
  let cam_pos := if "shift" ∈ keys then cam_pos - pan_amount • cam_up else cam_pos
  cam_pos

/-- The CAMERA ROTATION section of `handle_keyboard_inputs` (source lines
207-220): the four orbit branches, threading `cam_pos` and `cam_axis`; each
branch that fires translates the position along the normalised basis vector by
`move_dist` and then recomputes the axis from the focus point. -/
def orbitSection (keys : List String) (move_dist : ℝ)
    (cam_side_axis cam_up cam_focus : Vec3) (cam_pos cam_axis : Vec3) : Vec3 × Vec3 :=
  let cam_pos := if "left" ∈ keys ∧ "right" ∉ keys then cam_pos + move_dist • cam_side_axis.norm else cam_pos
  let cam_axis := if "left" ∈ keys ∧ "right" ∉ keys then -(cam_pos - cam_focus) else cam_axis
  let cam_pos := if "right" ∈ keys ∧ "left" ∉ keys then cam_pos - move_dist • cam_side_axis.norm else cam_pos
  let cam_axis := if "right" ∈ keys ∧ "left" ∉ keys then -(cam_pos - cam_focus) else cam_axis
  let cam_pos := if "up" ∈ keys ∧ "down" ∉ keys then cam_pos + move_dist • cam_up.norm else cam_pos
  let cam_axis := if "up" ∈ keys ∧ "down" ∉ keys then -(cam_pos - cam_focus) else cam_axis
  let cam_pos := if "down" ∈ keys ∧ "up" ∉ keys then cam_pos - move_dist • cam_up.norm else cam_pos
  let cam_axis := if "down" ∈ keys ∧ "up" ∉ keys then -(cam_pos - cam_focus) else cam_axis
  (cam_pos, cam_axis)

/-- `handle_keyboard_inputs` of `graphics/graphics_canvas.py` (lines 118-224),
translated line by line (the panning and orbit line ranges through the two
section functions above); `keys` is the list returned by `keysdown()`. -/
def handle_keyboard_inputs (s : Scene) (keys : List String) : Scene :=
  -- Constants
  let pan_amount : ℝ := 0.02
  let rot_amount : ℝ := 1.0
  -- Current settings
  let cam_distance := s.cam_axis.mag
  let cam_pos := s.cam_pos
  let cam_focus := s.center
  let cam_axis := s.cam_axis
  let cam_side_axis := s.up.cross cam_axis
  let cam_up := cam_axis.cross cam_side_axis
  let cam_up := cam_up.withMag cam_axis.mag
  -- Userspin uses ctrl, so skip this check while ctrl is held
  if "ctrl" ∈ keys then s else
  -- PANNING (lines 165-176)
  let cam_pos := panSection keys pan_amount cam_axis cam_side_axis cam_up cam_pos
  -- Update camera position before rotation (line 179)
  let s := { s with cam_pos := cam_pos }
  -- Camera Roll (lines 184-199)
  let cam_up :=
    if "q" ∈ keys ∧ "e" ∉ keys then
      (cam_up.rotate (-(radians rot_amount)) cam_axis).withMag cam_axis.mag
    else cam_up
  let s := if "q" ∈ keys ∧ "e" ∉ keys then { s with up := cam_up } else s
  let cam_up :=
    if "e" ∈ keys ∧ "q" ∉ keys then
      (cam_up.rotate (radians rot_amount) cam_axis).withMag cam_axis.mag
    else cam_up
  let s := if "e" ∈ keys ∧ "q" ∉ keys then { s with up := cam_up } else s
  -- CAMERA ROTATION (lines 203-220)
  let d := cam_distance
  let move_dist := Real.sqrt (d ^ 2 + d ^ 2 - 2 * d * d * Real.cos (radians rot_amount))
  let pa := orbitSection keys move_dist cam_side_axis cam_up cam_focus cam_pos cam_axis
  -- Update camera position and axis (lines 223-224)
  { s with cam_pos := pa.1, cam_axis := pa.2 }

/-- `reset_camera` of `graphics/graphics_canvas.py` (lines 228-238). -/
def reset_camera (s : Scene) : Scene :=
  let s := { s with up := z_axis_vector }
  let s := { s with cam_pos := vector 10 10 10 }
  { s with cam_axis := -s.cam_pos }

/-- Distance from the camera to the focus point of the scene. -/
def camToFocusDist (s : Scene) : ℝ := (s.center - s.cam_pos).mag

/-- The camera-relative side basis vector computed each tick (line 149). -/
def sideAxisOf (s : Scene) : Vec3 := s.up.cross s.cam_axis

/-- The camera-relative up basis vector computed each tick (lines 150-152):
forward cross side, rescaled to the magnitude of the forward axis. -/
def camUpOf (s : Scene) : Vec3 :=
  (s.cam_axis.cross (s.up.cross s.cam_axis)).withMag s.cam_axis.mag

/-- The value of the local variable `cam_up` after the roll section: the roll
branch that fires replaces it by the rotated, rescaled vector (lines 184-199). -/
def rolledUpOf (s : Scene) (keys : List String) : Vec3 :=
  let c := camUpOf s
  let c :=
    if "q" ∈ keys ∧ "e" ∉ keys then
      (c.rotate (-(radians 1.0)) s.cam_axis).withMag s.cam_axis.mag
    else c
  if "e" ∈ keys ∧ "q" ∉ keys then
    (c.rotate (radians 1.0) s.cam_axis).withMag s.cam_axis.mag
  else c

/-- The per-tick orbit step length (line 204), as a function of the camera
axis magnitude `d`: the law-of-cosines chord for a one degree arc. -/
def moveDist (d : ℝ) : ℝ :=
  Real.sqrt (d ^ 2 + d ^ 2 - 2 * d * d * Real.cos (radians 1.0))

/-- The orbit step length the handler uses for scene `s`. -/
def moveDistOf (s : Scene) : ℝ := moveDist s.cam_axis.mag

/-- Net displacement that the panning section adds to the camera position:
one fixed offset per held pan key, combined additively (lines 165-176). -/
def panDelta (s : Scene) (keys : List String) : Vec3 :=
  (if "w" ∈ keys then (0.02 : ℝ) • s.cam_axis else 0)
    + (if "s" ∈ keys then -((0.02 : ℝ) • s.cam_axis) else 0)
    + (if "a" ∈ keys then (0.02 : ℝ) • sideAxisOf s else 0)
    + (if "d" ∈ keys then -((0.02 : ℝ) • sideAxisOf s) else 0)
    + (if " " ∈ keys then (0.02 : ℝ) • camUpOf s else 0)
    + (if "shift" ∈ keys then -((0.02 : ℝ) • camUpOf s) else 0)

/-- Net displacement that the orbit section adds to the camera position
(lines 207-220). -/
def orbitDelta (s : Scene) (keys : List String) : Vec3 :=
  (if "left" ∈ keys ∧ "right" ∉ keys then moveDistOf s • (sideAxisOf s).norm else 0)
    + (if "right" ∈ keys ∧ "left" ∉ keys then -(moveDistOf s • (sideAxisOf s).norm) else 0)
    + (if "up" ∈ keys ∧ "down" ∉ keys then moveDistOf s • (rolledUpOf s keys).norm else 0)
    + (if "down" ∈ keys ∧ "up" ∉ keys then -(moveDistOf s • (rolledUpOf s keys).norm) else 0)

/-- At least one orbit branch fires. -/
def anyOrbit (keys : List String) : Prop :=
  ("left" ∈ keys ∧ "right" ∉ keys) ∨ ("right" ∈ keys ∧ "left" ∉ keys)
    ∨ ("up" ∈ keys ∧ "down" ∉ keys) ∨ ("down" ∈ keys ∧ "up" ∉ keys)

instance (keys : List String) : Decidable (anyOrbit keys) := by
  unfold anyOrbit; infer_instance

/-- vpython colours used by the module. -/
inductive Color where
  | white
  | red
  | green
  | blue
deriving DecidableEq

/-- The canvas-level scene settings touched by `init_canvas` and
`convert_grid_to_z_up`: display options, control toggles and the camera. -/
structure CanvasState where
  background : Color
  width : ℕ
  height : ℕ
  autoscale : Bool
  userpan : Bool
  userzoom : Bool
  userspin : Bool
  title : String
  caption : String
  forward : Vec3
  up : Vec3
  cam_pos : Vec3
  cam_axis : Vec3

/-- Modelled from the spec: the grid-overlay handle returned by `init_canvas`
(`GraphicsGrid` lives in `graphics.graphics_grid`, which is not under src);
only its visibility toggle is relevant here. -/
structure GraphicsGrid where
  visible : Bool

/-- Modelled from the spec: a freshly constructed `GraphicsGrid()` draws the
grid, so it starts visible. -/
def GraphicsGrid.init : GraphicsGrid := ⟨true⟩

/-- Modelled from the spec: `GraphicsGrid.set_visibility`. -/
def GraphicsGrid.set_visibility (_g : GraphicsGrid) (b : Bool) : GraphicsGrid := ⟨b⟩

/-- The UI widgets built by `setup_ui_controls` (lines 273-316). -/
inductive Widget where
  | button (text : String)
  | menuW (choices : List String)
  | checkbox (text : String)
  | slider

/-- vpython `scene.append_to_caption`. -/
def append_to_caption (s : CanvasState) (txt : String) : CanvasState :=
  { s with caption := s.caption ++ txt }

/-- The control-manual HTML string appended to the caption (lines 300-311). -/
def controls_str : String :=
  "<br><b>Controls</b><br>" ++ "<b>PAN</b><br>"
    ++ "W , S | <i>forward / backward</i><br>"
    ++ "A , D | <i>left / right</i><br>"
    ++ "SPACE , SHIFT | <i>up / down</i><br>"
    ++ "<b>ROTATE</b><br>" ++ "CTRL + LMB | <i>free spin</i><br>"
    ++ "ARROWS KEYS | <i>rotate direction</i><br>"
    ++ "Q , E | <i>roll left / right</i><br>"
    ++ "<b>ZOOM</b></br>" ++ "MOUSEWHEEL | <i>zoom in / out</i><br>"
    ++ "<script type=\"text/javascript\">var arrow_keys_handler = function(e) \x7bswitch(e.keyCode)\x7b case 37: case 39: case 38:  case 40: case 32: e.preventDefault(); break; default: break;\x7d\x7d;window.addEventListener(\"keydown\", arrow_keys_handler, false);</script>"

/-- `setup_ui_controls` of `graphics/graphics_canvas.py` (lines 273-316):
appends the caption text and builds the five widgets. -/
def setup_ui_controls (s : CanvasState) : CanvasState × List Widget :=
  let s := append_to_caption s "\n"
  let btn_reset := Widget.button "Reset Camera"
  let s := append_to_caption s "\t"
  let menu_robots := Widget.menuW ["r1", "r2"]
  let s := append_to_caption s "\n"
  let chkbox_ref := Widget.checkbox "Show Reference Frames"
  let s := append_to_caption s "\t"
  let chkbox_rob := Widget.checkbox "Show Robot"
  let s := append_to_caption s "\n"
  let s := append_to_caption s "Opacity:"
  let sld_opc := Widget.slider
  let s := append_to_caption s "\n"
  let s := append_to_caption s controls_str
  (s, [btn_reset, menu_robots, chkbox_ref, chkbox_rob, sld_opc])

/-- `convert_grid_to_z_up` of `graphics/graphics_canvas.py` (lines 59-79). -/
def convert_grid_to_z_up (s : CanvasState) : CanvasState :=
  -- First set the x-axis forward
  let s := { s with forward := x_axis_vector }
  let s := { s with up := z_axis_vector }
  -- Place the camera in the + axes
  let s := { s with cam_pos := vector 10 10 10 }
  { s with cam_axis := -s.cam_pos }

/-- `init_canvas` of `graphics/graphics_canvas.py` (lines 6-56), as a function
of the prior canvas state `s0` and the five configuration arguments; returns
the new canvas state and the grid-overlay handle (the `rate` call and the
keydown binding configure the event loop and do not touch this state). -/
def init_canvas (s0 : CanvasState) (height width : ℕ) (title caption : String)
    (grid : Bool) : CanvasState × GraphicsGrid :=
  -- Apply the settings
  let s := { s0 with background := Color.white }
  let s := { s with width := width }
  let s := { s with height := height }
  let s := { s with autoscale := false }
  -- Disable default controls
  let s := { s with userpan := false }
  let s := { s with userzoom := true }
  let s := { s with userspin := true }
  let s := if title ≠ "" then { s with title := title } else s
  let s := if caption ≠ "" then { s with caption := caption } else s
  let sw := setup_ui_controls s
  let s := sw.1
  let s := convert_grid_to_z_up s
  let graphics_grid := GraphicsGrid.init
  let graphics_grid := if ¬grid then graphics_grid.set_visibility false else graphics_grid
  (s, graphics_grid)

/-- Modelled from the spec: an SE3 pose (`spatialmath.pose3d.SE3`, not under
src) as its three rotation columns (the local x, y, z directions) and its
translation. -/
structure SE3 where
  xcol : Vec3
  ycol : Vec3
  zcol : Vec3
  pos : Vec3

/-- Modelled from the spec: `get_pose_pos` of `graphics.common_functions`
(not under src); the position of the pose. -/
def get_pose_pos (se3_pose : SE3) : Vec3 := se3_pose.pos

/-- Modelled from the spec: `get_pose_x_vec` of `graphics.common_functions`
(not under src); the local x direction of the pose. -/
def get_pose_x_vec (se3_pose : SE3) : Vec3 := se3_pose.xcol

/-- Modelled from the spec: `get_pose_y_vec` of `graphics.common_functions`
(not under src); the local y direction of the pose. -/
def get_pose_y_vec (se3_pose : SE3) : Vec3 := se3_pose.ycol

/-- A vpython `arrow` as constructed by `draw_reference_frame_axes`: the
keyword arguments the code passes. -/
structure Arrow where
  pos : Vec3
  axis : Vec3
  length : ℝ
  color : Color

/-- The compound object returned by `draw_reference_frame_axes`: the three
arrows it groups, the origin it is anchored at, and the axis/up orientation
set on it. -/
structure FrameRef where
  arrows : List Arrow
  origin : Vec3
  axis : Vec3
  up : Vec3

/-- `draw_reference_frame_axes` of `graphics/graphics_canvas.py`
(lines 82-115). -/
def draw_reference_frame_axes (se3_pose : SE3) : FrameRef :=
  let origin := get_pose_pos se3_pose
  let x_axis := get_pose_x_vec se3_pose
  let y_axis := get_pose_y_vec se3_pose
  -- Draw X, Y, Z axis arrows (lines 99-105)
  let x_arrow : Arrow := ⟨origin, x_axis_vector, 0.25, Color.red⟩
  let y_arrow : Arrow := ⟨origin, y_axis_vector, 0.25, Color.green⟩
  let z_arrow : Arrow := ⟨origin, z_axis_vector, 0.25, Color.blue⟩
  -- Combine all to manipulate together (line 109), then set frame axes
  -- (lines 112-113)
  let frame_ref : FrameRef := ⟨[x_arrow, y_arrow, z_arrow], origin, x_axis, y_axis⟩
  frame_ref

/-- Concrete scene used by witnesses and counterexamples: camera at `(1,0,0)`
looking at the origin along `(-1,0,0)` with the world z up; a consistent
vpython pose (`center = pos + axis`). -/
def sWit : Scene :=
  { cam_pos := vector 1 0 0
    cam_axis := vector (-1) 0 0
    up := vector 0 0 1
    center := vector 0 0 0 }

/-- Concrete scene whose camera axis has magnitude 2, used to refute the
fixed-pan-magnitude claim. -/
def panCexScene : Scene :=
  { cam_pos := vector 0 0 0
    cam_axis := vector (-2) 0 0
    up := vector 0 0 1
    center := vector (-2) 0 0 }

/-- Concrete pose rotated 90 degrees about z, used to refute the
reference-frame arrow claim. -/
def poseZ90 : SE3 :=
  { xcol := vector 0 1 0
    ycol := vector (-1) 0 0
    zcol := vector 0 0 1
    pos := vector 0 0 0 }

/-! ### Supporting lemmas -/

namespace Vec3

@[simp] lemma zero_x : (0 : Vec3).x = 0 := rfl

@[simp] lemma zero_y : (0 : Vec3).y = 0 := rfl

@[simp] lemma zero_z : (0 : Vec3).z = 0 := rfl

@[simp] lemma add_x (a b : Vec3) : (a + b).x = a.x + b.x := rfl

@[simp] lemma add_y (a b : Vec3) : (a + b).y = a.y + b.y := rfl

@[simp] lemma add_z (a b : Vec3) : (a + b).z = a.z + b.z := rfl

@[simp] lemma neg_x (a : Vec3) : (-a).x = -a.x := rfl

@[simp] lemma neg_y (a : Vec3) : (-a).y = -a.y := rfl

@[simp] lemma neg_z (a : Vec3) : (-a).z = -a.z := rfl

@[simp] lemma sub_x (a b : Vec3) : (a - b).x = a.x - b.x := rfl

@[simp] lemma sub_y (a b : Vec3) : (a - b).y = a.y - b.y := rfl

@[simp] lemma sub_z (a b : Vec3) : (a - b).z = a.z - b.z := rfl

@[simp] lemma smul_x (c : ℝ) (a : Vec3) : (c • a).x = c * a.x := rfl

@[simp] lemma smul_y (c : ℝ) (a : Vec3) : (c • a).y = c * a.y := rfl

@[simp] lemma smul_z (c : ℝ) (a : Vec3) : (c • a).z = c * a.z := rfl

@[simp] lemma mk_x (a b c : ℝ) : (Vec3.mk a b c).x = a := rfl

@[simp] lemma mk_y (a b c : ℝ) : (Vec3.mk a b c).y = b := rfl

@[simp] lemma mk_z (a b c : ℝ) : (Vec3.mk a b c).z = c := rfl

lemma dot_comm (a b : Vec3) : a.dot b = b.dot a := by
  simp [dot]; ring

lemma dot_self_nonneg (v : Vec3) : 0 ≤ v.dot v := by
  simp only [dot]
  nlinarith [sq_nonneg v.x, sq_nonneg v.y, sq_nonneg v.z]

lemma dot_smul_left (c : ℝ) (a b : Vec3) : (c • a).dot b = c * a.dot b := by
  simp [dot]; ring

lemma dot_smul_right (c : ℝ) (a b : Vec3) : a.dot (c • b) = c * a.dot b := by
  simp [dot]; ring

lemma dot_add_left (a b c : Vec3) : (a + b).dot c = a.dot c + b.dot c := by
  simp [dot]; ring

lemma dot_add_right (a b c : Vec3) : a.dot (b + c) = a.dot b + a.dot c := by
  simp [dot]; ring

lemma dot_sub_left (a b c : Vec3) : (a - b).dot c = a.dot c - b.dot c := by
  simp [dot]; ring

lemma dot_sub_right (a b c : Vec3) : a.dot (b - c) = a.dot b - a.dot c := by
  simp [dot]; ring

lemma dot_zero_right (a : Vec3) : a.dot 0 = 0 := by
  simp [dot]

lemma dot_cross_left (a b : Vec3) : (a.cross b).dot a = 0 := by
  simp [dot, cross]; ring

lemma dot_cross_right (a b : Vec3) : (a.cross b).dot b = 0 := by
  simp [dot, cross]; ring

lemma dot_self_cross (a b : Vec3) : a.dot (a.cross b) = 0 := by
  simp [dot, cross]; ring

lemma dot_right_cross (a b : Vec3) : b.dot (a.cross b) = 0 := by
  simp [dot, cross]; ring

/-- Lagrange identity for the cross product. -/
lemma dot_cross_self (a b : Vec3) :
    (a.cross b).dot (a.cross b) = a.dot a * b.dot b - a.dot b ^ 2 := by
  simp [dot, cross]; ring

lemma mag_sq (v : Vec3) : v.mag ^ 2 = v.dot v :=
  Real.sq_sqrt v.dot_self_nonneg

lemma mag_nonneg (v : Vec3) : 0 ≤ v.mag := Real.sqrt_nonneg _

@[simp] lemma mag_zero : (0 : Vec3).mag = 0 := by
  simp [mag, dot]

lemma mag_eq_zero {v : Vec3} : v.mag = 0 ↔ v = 0 := by
  constructor
  · intro h
    have hd : v.dot v = 0 := by
      have := congrArg (fun t => t ^ 2) h
      simpa [mag_sq] using this
    simp only [dot] at hd
    have hx : v.x = 0 := by nlinarith [sq_nonneg v.x, sq_nonneg v.y, sq_nonneg v.z]
    have hy : v.y = 0 := by nlinarith [sq_nonneg v.x, sq_nonneg v.y, sq_nonneg v.z]
    have hz : v.z = 0 := by nlinarith [sq_nonneg v.x, sq_nonneg v.y, sq_nonneg v.z]
    ext <;> simp [hx, hy, hz]
  · intro h
    simp [h]

lemma mag_pos {v : Vec3} (h : v ≠ 0) : 0 < v.mag :=
  lt_of_le_of_ne v.mag_nonneg (fun e => h (mag_eq_zero.mp e.symm))

lemma mag_smul (c : ℝ) (v : Vec3) : (c • v).mag = |c| * v.mag := by
  have h : (c • v).dot (c • v) = c ^ 2 * v.dot v := by
    simp [dot]; ring
  rw [mag, h, Real.sqrt_mul (sq_nonneg c), Real.sqrt_sq_eq_abs, mag]

lemma mag_norm {v : Vec3} (h : v ≠ 0) : v.norm.mag = 1 := by
  have hm := mag_pos h
  rw [norm, mag_smul, abs_of_nonneg (by positivity)]
  field_simp

lemma norm_zero : (0 : Vec3).norm = 0 := by
  simp [norm]

lemma dot_norm_left (v w : Vec3) : v.norm.dot w = (1 / v.mag) * v.dot w := by
  rw [norm, dot_smul_left]

end Vec3

lemma ite_add_shift (c : Prop) [Decidable c] (p v : Vec3) :
    (if c then p + v else p) = p + (if c then v else 0) := by
  split <;> simp

lemma ite_sub_shift (c : Prop) [Decidable c] (p v : Vec3) :
    (if c then p - v else p) = p + (if c then -v else 0) := by
  split <;> simp [sub_eq_add_neg]

lemma panSection_spec (keys : List String) (c : ℝ) (a sd u p : Vec3) :
    panSection keys c a sd u p
      = p + ((if "w" ∈ keys then c • a else 0)
        + (if "s" ∈ keys then -(c • a) else 0)
        + (if "a" ∈ keys then c • sd else 0)
        + (if "d" ∈ keys then -(c • sd) else 0)
        + (if " " ∈ keys then c • u else 0)
        + (if "shift" ∈ keys then -(c • u) else 0)) := by
  simp only [panSection, ite_add_shift, ite_sub_shift]
  abel

lemma orbitSection_fst (keys : List String) (m : ℝ) (sd u f p a : Vec3) :
    (orbitSection keys m sd u f p a).1
      = p + ((if "left" ∈ keys ∧ "right" ∉ keys then m • sd.norm else 0)
        + (if "right" ∈ keys ∧ "left" ∉ keys then -(m • sd.norm) else 0)
        + (if "up" ∈ keys ∧ "down" ∉ keys then m • u.norm else 0)
        + (if "down" ∈ keys ∧ "up" ∉ keys then -(m • u.norm) else 0)) := by
  simp only [orbitSection, ite_add_shift, ite_sub_shift]
  abel

set_option maxHeartbeats 1600000 in
lemma orbitSection_snd (keys : List String) (m : ℝ) (sd u f p a : Vec3) :
    (orbitSection keys m sd u f p a).2
      = if anyOrbit keys then f - (orbitSection keys m sd u f p a).1 else a := by
  by_cases hlr : "left" ∈ keys ∧ "right" ∉ keys <;>
    by_cases hrl : "right" ∈ keys ∧ "left" ∉ keys <;>
      by_cases hud : "up" ∈ keys ∧ "down" ∉ keys <;>
        by_cases hdu : "down" ∈ keys ∧ "up" ∉ keys
  all_goals try exact absurd hlr.1 hrl.2
  all_goals try exact absurd hud.1 hdu.2
  all_goals
    simp only [orbitSection, anyOrbit, hlr, hrl, hud, hdu, if_true, if_false,
      iff_true, iff_false, or_true, true_or, or_false, false_or,
      and_true, true_and, and_false, false_and, and_self, or_self,
      not_true, not_false_iff, not_false_eq_true, not_true_eq_false,
      ite_true, ite_false]
  all_goals try abel

lemma handle_ctrl (s : Scene) (keys : List String) (h : "ctrl" ∈ keys) :
    handle_keyboard_inputs s keys = s := by
  simp only [handle_keyboard_inputs, if_pos h]

lemma handle_center (s : Scene) (keys : List String) :
    (handle_keyboard_inputs s keys).center = s.center := by
  simp only [handle_keyboard_inputs]
  split
  · rfl
  · simp only [apply_ite Scene.center]
    split <;> split <;> rfl

lemma handle_pos (s : Scene) (keys : List String) (h : "ctrl" ∉ keys) :
    (handle_keyboard_inputs s keys).cam_pos
      = s.cam_pos + panDelta s keys + orbitDelta s keys := by
  simp only [handle_keyboard_inputs, if_neg h]
  rw [orbitSection_fst, panSection_spec]
  simp only [panDelta, orbitDelta, sideAxisOf, camUpOf, rolledUpOf, moveDistOf, moveDist]
  try abel

lemma handle_up (s : Scene) (keys : List String) (h : "ctrl" ∉ keys) :
    (handle_keyboard_inputs s keys).up =
      if "q" ∈ keys ∧ "e" ∉ keys then
        ((camUpOf s).rotate (-(radians 1.0)) s.cam_axis).withMag s.cam_axis.mag
      else if "e" ∈ keys ∧ "q" ∉ keys then
        ((camUpOf s).rotate (radians 1.0) s.cam_axis).withMag s.cam_axis.mag
      else s.up := by
  simp only [handle_keyboard_inputs, if_neg h]
  by_cases hq : "q" ∈ keys ∧ "e" ∉ keys <;>
    by_cases he : "e" ∈ keys ∧ "q" ∉ keys
  · exact absurd hq.1 he.2
  · simp [hq, he, camUpOf]
  · simp [hq, he, camUpOf]
  · simp [hq, he]

lemma cross_zero_right (a : Vec3) : a.cross 0 = 0 := by
  ext <;> simp [Vec3.cross]

lemma dot_self_pos {v : Vec3} (h : v ≠ 0) : 0 < v.dot v := by
  have hm := Vec3.mag_pos h
  rw [← Vec3.mag_sq]
  positivity

lemma ne_zero_of_dot_self_ne {v : Vec3} (h : v.dot v ≠ 0) : v ≠ 0 := by
  intro e
  apply h
  simp [e, Vec3.dot]

lemma mag_withMag {v : Vec3} (h : v ≠ 0) (m : ℝ) : (v.withMag m).mag = |m| := by
  rw [Vec3.withMag, Vec3.mag_smul, Vec3.mag_norm h, mul_one]

/-- Rotation of a vector perpendicular to the axis drops the Rodrigues
parallel term. -/
lemma rotate_perp (v a : Vec3) (θ : ℝ) (hv : a.norm.dot v = 0) :
    v.rotate θ a = Real.cos θ • v + Real.sin θ • (a.norm.cross v) := by
  simp [Vec3.rotate, hv]

/-- Rotation about an axis perpendicular to the vector preserves the dot
square, hence the magnitude. -/
lemma dot_self_rotate_perp (v a : Vec3) (θ : ℝ) (ha : a ≠ 0) (hv : v.dot a = 0) :
    (v.rotate θ a).dot (v.rotate θ a) = v.dot v := by
  have hu : a.norm.dot v = 0 := by
    rw [Vec3.dot_norm_left, Vec3.dot_comm a v, hv, mul_zero]
  rw [rotate_perp v a θ hu]
  have huu : a.norm.dot a.norm = 1 := by
    have := Vec3.mag_sq a.norm
    rw [Vec3.mag_norm ha] at this
    simpa using this.symm
  simp only [Vec3.dot_add_left, Vec3.dot_add_right, Vec3.dot_smul_left,
    Vec3.dot_smul_right, Vec3.dot_self_cross, Vec3.dot_cross_self,
    Vec3.dot_cross_right, Vec3.dot_right_cross, huu, hu]
  linear_combination v.dot v * Real.sin_sq_add_cos_sq θ

lemma mag_rotate_perp (v a : Vec3) (θ : ℝ) (ha : a ≠ 0) (hv : v.dot a = 0) :
    (v.rotate θ a).mag = v.mag := by
  rw [Vec3.mag, Vec3.mag, dot_self_rotate_perp v a θ ha hv]

lemma sideAxisOf_dot_axis (s : Scene) : (sideAxisOf s).dot s.cam_axis = 0 := by
  simp [sideAxisOf, Vec3.dot_cross_right]

lemma camUpOf_eq_smul (s : Scene) :
    camUpOf s = (s.cam_axis.mag * (1 / (s.cam_axis.cross (s.up.cross s.cam_axis)).mag))
      • s.cam_axis.cross (s.up.cross s.cam_axis) := by
  rw [camUpOf, Vec3.withMag, Vec3.norm, smul_smul]

lemma camUpOf_dot_axis (s : Scene) : (camUpOf s).dot s.cam_axis = 0 := by
  rw [camUpOf_eq_smul, Vec3.dot_smul_left, Vec3.dot_cross_left, mul_zero]

lemma axis_ne_zero_of_side {s : Scene} (h : sideAxisOf s ≠ 0) : s.cam_axis ≠ 0 := by
  intro e
  apply h
  rw [sideAxisOf, e, cross_zero_right]

lemma cross_axis_side_ne_zero {s : Scene} (h : sideAxisOf s ≠ 0) :
    s.cam_axis.cross (s.up.cross s.cam_axis) ≠ 0 := by
  have ha : s.cam_axis ≠ 0 := axis_ne_zero_of_side h
  apply ne_zero_of_dot_self_ne
  have heq : s.cam_axis.cross (s.up.cross s.cam_axis) = s.cam_axis.cross (sideAxisOf s) := rfl
  rw [heq, Vec3.dot_cross_self]
  have h1 : s.cam_axis.dot (sideAxisOf s) = 0 := by
    rw [Vec3.dot_comm]
    exact sideAxisOf_dot_axis s
  rw [h1]
  intro hzero
  nlinarith [dot_self_pos ha, dot_self_pos h]

lemma mag_camUpOf {s : Scene} (h : sideAxisOf s ≠ 0) :
    (camUpOf s).mag = s.cam_axis.mag := by
  rw [camUpOf, mag_withMag (cross_axis_side_ne_zero h) _]
  exact abs_of_nonneg (Vec3.mag_nonneg _)

lemma camUpOf_ne_zero {s : Scene} (h : sideAxisOf s ≠ 0) : camUpOf s ≠ 0 := by
  have ha : s.cam_axis ≠ 0 := axis_ne_zero_of_side h
  intro e
  have hm := mag_camUpOf h
  rw [e, Vec3.mag_zero] at hm
  exact ha (Vec3.mag_eq_zero.mp hm.symm)

/-- The handler depends on the key list only through key membership. -/
lemma handle_congr (s : Scene) (k1 k2 : List String)
    (h : ∀ k, k ∈ k1 ↔ k ∈ k2) :
    handle_keyboard_inputs s k1 = handle_keyboard_inputs s k2 := by
  have e : ∀ k : String, (k ∈ k1) = (k ∈ k2) := fun k => propext (h k)
  simp only [handle_keyboard_inputs, panSection, orbitSection, e]

lemma radians_one : radians 1.0 = Real.pi / 180 := by
  rw [radians]
  norm_num

lemma cos_radians_one_lt_one : Real.cos (radians 1.0) < 1 := by
  have hπ := Real.pi_pos
  rw [radians_one]
  rcases lt_or_eq_of_le (Real.cos_le_one (Real.pi / 180)) with h | h
  · exact h
  · exfalso
    have hz := (Real.cos_eq_one_iff_of_lt_of_lt
      (x := Real.pi / 180) (by nlinarith) (by nlinarith)).mp h
    nlinarith

lemma moveDist_nonneg (d : ℝ) : 0 ≤ moveDist d := Real.sqrt_nonneg _

lemma moveDist_sq (d : ℝ) :
    moveDist d ^ 2 = d ^ 2 + d ^ 2 - 2 * d * d * Real.cos (radians 1.0) := by
  have harg : 0 ≤ d ^ 2 + d ^ 2 - 2 * d * d * Real.cos (radians 1.0) := by
    nlinarith [Real.cos_le_one (radians 1.0), sq_nonneg d]
  exact Real.sq_sqrt harg

lemma moveDist_pos {d : ℝ} (hd : d ≠ 0) : 0 < moveDist d := by
  rw [moveDist]
  apply Real.sqrt_pos.mpr
  have hd2 : 0 < d ^ 2 := by
    rcases lt_or_gt_of_ne hd with h | h <;> nlinarith
  nlinarith [cos_radians_one_lt_one]

/-- The chord formula evaluated as twice the half-angle sine. -/
lemma moveDist_eq_sin (d : ℝ) (hd : 0 ≤ d) :
    moveDist d = 2 * d * Real.sin (Real.pi / 360) := by
  have h2 : Real.cos (Real.pi / 180) = 1 - 2 * Real.sin (Real.pi / 360) ^ 2 := by
    have he : Real.pi / 180 = 2 * (Real.pi / 360) := by ring
    rw [he, Real.cos_two_mul]
    have hs := Real.sin_sq_add_cos_sq (Real.pi / 360)
    nlinarith
  have hsin : 0 ≤ Real.sin (Real.pi / 360) :=
    Real.sin_nonneg_of_nonneg_of_le_pi (by positivity)
      (by nlinarith [Real.pi_pos])
  have harg : d ^ 2 + d ^ 2 - 2 * d * d * Real.cos (radians 1.0)
      = (2 * d * Real.sin (Real.pi / 360)) ^ 2 := by
    rw [radians_one, h2]
    ring
  rw [moveDist, harg, Real.sqrt_sq (by positivity)]

/-- The worked example of the spec: at camera distance `17.32`, one orbit
step has length approximately `0.3023`. -/
lemma moveDist_approx : |moveDist 17.32 - 0.3023| < 0.0001 := by
  have hmd := moveDist_eq_sin 17.32 (by norm_num)
  have hπl := Real.pi_gt_d6
  have hπu := Real.pi_lt_d6
  have hy0 : (0 : ℝ) < Real.pi / 360 := by positivity
  have hy1 : (3.141592 / 360 : ℝ) < Real.pi / 360 := by linarith
  have hy2 : Real.pi / 360 < (3.141593 / 360 : ℝ) := by linarith
  have hy3 : (Real.pi / 360) ^ 3 < (3.141593 / 360 : ℝ) ^ 3 := by
    apply pow_lt_pow_left₀ hy2 (le_of_lt hy0)
    norm_num
  have hsl : Real.pi / 360 - (Real.pi / 360) ^ 3 / 4 < Real.sin (Real.pi / 360) :=
    Real.sin_gt_sub_cube hy0 (by nlinarith)
  have hsu : Real.sin (Real.pi / 360) < Real.pi / 360 := Real.sin_lt hy0
  rw [hmd, abs_lt]
  constructor
  · nlinarith
  · nlinarith

/-- Moving a point by `m` along a unit direction orthogonal to the offset `w`
changes the squared length of the offset by exactly `m ^ 2`. -/
lemma mag_sq_sub_smul (w u : Vec3) (m : ℝ) (hu : u.dot u = 1) (hw : u.dot w = 0) :
    (w - m • u).mag ^ 2 = w.mag ^ 2 + m ^ 2 := by
  rw [Vec3.mag_sq, Vec3.mag_sq]
  simp only [Vec3.dot_sub_left, Vec3.dot_sub_right, Vec3.dot_smul_left,
    Vec3.dot_smul_right]
  rw [hu, hw, Vec3.dot_comm w u, hw]
  ring

lemma dot_norm_self_one {v : Vec3} (h : v ≠ 0) : v.norm.dot v.norm = 1 := by
  have := Vec3.mag_sq v.norm
  rw [Vec3.mag_norm h] at this
  simpa using this.symm

lemma handle_axis (s : Scene) (keys : List String) (h : "ctrl" ∉ keys) :
    (handle_keyboard_inputs s keys).cam_axis =
      if anyOrbit keys then
        s.center - (s.cam_pos + panDelta s keys + orbitDelta s keys)
      else s.cam_axis := by
  have hp := handle_pos s keys h
  simp only [handle_keyboard_inputs, if_neg h] at hp ⊢
  rw [orbitSection_snd]
  by_cases hO : anyOrbit keys
  · simp only [hO, if_true, iff_true]
    rw [hp]
  · simp only [hO, if_false, iff_false]

lemma mag_vector (a b c : ℝ) :
    (vector a b c).mag = Real.sqrt (a * a + b * b + c * c) := rfl

lemma norm_of_mag_one {v : Vec3} (h : v.mag = 1) : v.norm = v := by
  rw [Vec3.norm, h]
  ext <;> simp

lemma withMag_of_mag_one {v : Vec3} (h : v.mag = 1) : v.withMag 1 = v := by
  rw [Vec3.withMag, norm_of_mag_one h, one_smul]

lemma sWit_cons : sWit.cam_axis = sWit.center - sWit.cam_pos := by
  ext <;> simp [sWit, vector]

lemma sWit_axis_mag : sWit.cam_axis.mag = 1 := by
  rw [show sWit.cam_axis = vector (-1) 0 0 from rfl, mag_vector]
  norm_num [Real.sqrt_one]

lemma sWit_side : sideAxisOf sWit = vector 0 (-1) 0 := by
  ext <;> simp [sideAxisOf, sWit, Vec3.cross, vector]

lemma sWit_side_mag : (sideAxisOf sWit).mag = 1 := by
  rw [sWit_side, mag_vector]
  norm_num [Real.sqrt_one]

lemma sWit_side_ne : sideAxisOf sWit ≠ 0 := by
  rw [sWit_side]
  intro hcontra
  have hy := congrArg Vec3.y hcontra
  simp [vector] at hy

lemma sWit_norm_side : (sideAxisOf sWit).norm = vector 0 (-1) 0 := by
  rw [norm_of_mag_one sWit_side_mag, sWit_side]

lemma sWit_camUp : camUpOf sWit = vector 0 0 1 := by
  have h1 : sWit.cam_axis.cross (sWit.up.cross sWit.cam_axis) = vector 0 0 1 := by
    ext <;> simp [sWit, Vec3.cross, vector]
  have h2 : (vector 0 0 1 : Vec3).mag = 1 := by
    rw [mag_vector]
    norm_num [Real.sqrt_one]
  rw [camUpOf, h1, sWit_axis_mag, withMag_of_mag_one h2]

lemma sWit_camUp_ne : camUpOf sWit ≠ 0 := by
  rw [sWit_camUp]
  intro hcontra
  have hz := congrArg Vec3.z hcontra
  simp [vector] at hz

lemma sWit_dist : camToFocusDist sWit = 1 := by
  have h1 : sWit.center - sWit.cam_pos = vector (-1) 0 0 := by
    ext <;> simp [sWit, vector]
  rw [camToFocusDist, h1, mag_vector]
  norm_num [Real.sqrt_one]

lemma rolledUpOf_no_roll (s : Scene) (keys : List String)
    (hq : "q" ∉ keys) (he : "e" ∉ keys) : rolledUpOf s keys = camUpOf s := by
  simp [rolledUpOf, hq, he]

lemma rotate_zero_vec (θ : ℝ) (a : Vec3) : (0 : Vec3).rotate θ a = 0 := by
  simp [Vec3.rotate, cross_zero_right, Vec3.dot_zero_right]

lemma withMag_zero_vec (m : ℝ) : (0 : Vec3).withMag m = 0 := by
  rw [Vec3.withMag, Vec3.norm_zero, smul_zero]

lemma axis_ne_zero_of_camUp {s : Scene} (h : camUpOf s ≠ 0) : s.cam_axis ≠ 0 := by
  intro e
  apply h
  simp [camUpOf, e, Vec3.withMag]

/-- The scene up written by a roll branch makes an angle of exactly one
degree with the camera-relative up basis vector: their dot product equals the
product of their magnitudes with the cosine of the rotation angle. -/
lemma roll_dot_cos (s : Scene) (θ : ℝ) :
    (camUpOf s).dot (((camUpOf s).rotate θ s.cam_axis).withMag s.cam_axis.mag)
      = (camUpOf s).mag
        * (((camUpOf s).rotate θ s.cam_axis).withMag s.cam_axis.mag).mag
        * Real.cos θ := by
  by_cases hcu : camUpOf s = 0
  · rw [hcu, rotate_zero_vec, withMag_zero_vec, Vec3.dot_zero_right, Vec3.mag_zero]
    ring
  · have ha : s.cam_axis ≠ 0 := axis_ne_zero_of_camUp hcu
    have hperp : (camUpOf s).dot s.cam_axis = 0 := camUpOf_dot_axis s
    have hmagrot : ((camUpOf s).rotate θ s.cam_axis).mag = (camUpOf s).mag :=
      mag_rotate_perp _ _ θ ha hperp
    have hrotne : (camUpOf s).rotate θ s.cam_axis ≠ 0 := by
      intro e
      rw [e, Vec3.mag_zero] at hmagrot
      exact hcu (Vec3.mag_eq_zero.mp hmagrot.symm)
    have hu : s.cam_axis.norm.dot (camUpOf s) = 0 := by
      rw [Vec3.dot_norm_left, Vec3.dot_comm, hperp, mul_zero]
    have hdotrot : (camUpOf s).dot ((camUpOf s).rotate θ s.cam_axis)
        = Real.cos θ * (camUpOf s).dot (camUpOf s) := by
      rw [rotate_perp _ _ θ hu, Vec3.dot_add_right, Vec3.dot_smul_right,
        Vec3.dot_smul_right, Vec3.dot_right_cross]
      ring
    rw [Vec3.withMag, Vec3.norm, Vec3.dot_smul_right, Vec3.dot_smul_right,
      hdotrot, Vec3.mag_smul, Vec3.mag_smul, hmagrot, ← Vec3.mag_sq]
    have hcupos := Vec3.mag_pos hcu
    have hapos : 0 ≤ s.cam_axis.mag := Vec3.mag_nonneg _
    rw [abs_of_nonneg hapos, abs_of_nonneg (by positivity : (0:ℝ) ≤ 1 / (camUpOf s).mag)]
    field_simp
    ring

/-- For a nondegenerate pose, the scene up written by a roll branch has the
magnitude of the camera axis. -/
lemma roll_mag (s : Scene) (θ : ℝ) (hside : sideAxisOf s ≠ 0) :
    (((camUpOf s).rotate θ s.cam_axis).withMag s.cam_axis.mag).mag
      = s.cam_axis.mag := by
  have hcu := camUpOf_ne_zero hside
  have ha := axis_ne_zero_of_side hside
  have hperp := camUpOf_dot_axis s
  have hmagrot := mag_rotate_perp (camUpOf s) _ θ ha hperp
  have hrotne : (camUpOf s).rotate θ s.cam_axis ≠ 0 := by
    intro e
    rw [e, Vec3.mag_zero] at hmagrot
    exact hcu (Vec3.mag_eq_zero.mp hmagrot.symm)
  rw [mag_withMag hrotne, abs_of_nonneg (Vec3.mag_nonneg _)]

lemma filter_roll_mem (keys : List String) (k3 : String)
    (hq : k3 ≠ "q") (he : k3 ≠ "e") :
    (k3 ∈ keys.filter fun k => !(k == "q" || k == "e")) = (k3 ∈ keys) := by
  apply propext
  simp [List.mem_filter, hq, he]

/-! ### Claims -/

/-- Claim C1: whenever the free-spin modifier key ctrl is in the held-key
set, one invocation of `handle_keyboard_inputs` leaves the camera position,
the camera axis and the up vector of the scene unchanged, whatever other keys
are also held. -/
theorem ctrl_skips_all_camera_mutation (s : Scene) (keys : List String)
    (h : "ctrl" ∈ keys) :
    (handle_keyboard_inputs s keys).cam_pos = s.cam_pos
      ∧ (handle_keyboard_inputs s keys).cam_axis = s.cam_axis
      ∧ (handle_keyboard_inputs s keys).up = s.up := by
  rw [handle_ctrl s keys h]
  exact ⟨rfl, rfl, rfl⟩

/-- Witness for C1 at a concrete scene and key set holding ctrl together
with pan, orbit and roll keys. -/
theorem ctrl_skips_all_camera_mutation_witness :
    ("ctrl" : String) ∈ (["ctrl", "w", "left", "q"] : List String)
      ∧ ((handle_keyboard_inputs sWit ["ctrl", "w", "left", "q"]).cam_pos = sWit.cam_pos
        ∧ (handle_keyboard_inputs sWit ["ctrl", "w", "left", "q"]).cam_axis = sWit.cam_axis
        ∧ (handle_keyboard_inputs sWit ["ctrl", "w", "left", "q"]).up = sWit.up) :=
  ⟨by decide, ctrl_skips_all_camera_mutation sWit ["ctrl", "w", "left", "q"] (by decide)⟩

/-- Claim C10: neither the keyboard handler nor the camera reset ever writes
the focus point `scene.center`. -/
theorem focus_center_never_written (s : Scene) (keys : List String) :
    (handle_keyboard_inputs s keys).center = s.center
      ∧ (reset_camera s).center = s.center :=
  ⟨handle_center s keys, rfl⟩

/-- Claim C7: after `reset_camera`, whatever the prior state, the camera
position is `(10, 10, 10)`, the camera axis is its negation `(-10, -10, -10)`
and the scene up vector is the z axis unit vector. -/
theorem reset_camera_restores_defaults (s : Scene) :
    (reset_camera s).cam_pos = vector 10 10 10
      ∧ (reset_camera s).cam_axis = vector (-10) (-10) (-10)
      ∧ (reset_camera s).up = z_axis_vector := by
  refine ⟨rfl, ?_, rfl⟩
  show -(vector 10 10 10) = vector (-10) (-10) (-10)
  ext <;> simp [vector]

/-- Claim C6: without the free-spin modifier, the camera position after one
invocation is the prior position plus the per-key pan offsets plus the orbit
offsets, and it depends on the held-key set only through membership, hence is
independent of the order in which held keys are listed. -/
theorem camera_pos_key_order_independent (s : Scene) (k1 k2 : List String)
    (hc : "ctrl" ∉ k1) (h : ∀ k, k ∈ k1 ↔ k ∈ k2) :
    (handle_keyboard_inputs s k1).cam_pos = (handle_keyboard_inputs s k2).cam_pos
      ∧ (handle_keyboard_inputs s k1).cam_pos
        = s.cam_pos + panDelta s k1 + orbitDelta s k1 :=
  ⟨by rw [handle_congr s k1 k2 h], handle_pos s k1 hc⟩

/-- Witness for C6 at a concrete scene and two orderings of the same
held-key set. -/
theorem camera_pos_key_order_independent_witness :
    (("ctrl" : String) ∉ (["w", " "] : List String)
      ∧ ∀ k : String, k ∈ (["w", " "] : List String) ↔ k ∈ ([" ", "w"] : List String))
      ∧ ((handle_keyboard_inputs sWit ["w", " "]).cam_pos
          = (handle_keyboard_inputs sWit [" ", "w"]).cam_pos
        ∧ (handle_keyboard_inputs sWit ["w", " "]).cam_pos
          = sWit.cam_pos + panDelta sWit ["w", " "] + orbitDelta sWit ["w", " "]) :=
  ⟨⟨by decide, fun k => by simp [List.mem_cons]; exact or_comm⟩,
    camera_pos_key_order_independent sWit ["w", " "] [" ", "w"] (by decide)
      (fun k => by simp [List.mem_cons]; exact or_comm)⟩

/-- Claim C3 fails as stated: the pan displacement for one held pan key does
not have fixed magnitude `0.02`; at a camera axis of magnitude `2`, one
invocation holding only the forward key moves the camera by `0.04` units. -/
theorem pan_step_magnitude_not_fixed_cex :
    ((handle_keyboard_inputs panCexScene ["w"]).cam_pos - panCexScene.cam_pos).mag
      ≠ 0.02 := by
  have hp := handle_pos panCexScene ["w"] (by decide)
  have hΔ : panDelta panCexScene ["w"] = (0.02 : ℝ) • panCexScene.cam_axis := by
    simp [panDelta]
  have hO : orbitDelta panCexScene ["w"] = 0 := by
    simp [orbitDelta]
  have hv : (handle_keyboard_inputs panCexScene ["w"]).cam_pos - panCexScene.cam_pos
      = vector (-0.04) 0 0 := by
    rw [hp, hΔ, hO]
    ext <;> simp [panCexScene, vector]
    all_goals norm_num
  rw [hv, mag_vector]
  rw [show ((-0.04 : ℝ) * (-0.04) + 0 * 0 + 0 * 0) = (0.04 : ℝ) ^ 2 by norm_num,
    Real.sqrt_sq (by norm_num)]
  norm_num

/-- Claim C3 (amended): without ctrl, the handler adds to the camera
position, for each held pan key, the displacement `0.02` times the
corresponding camera-relative basis vector (of magnitude `0.02` times the
basis magnitude, not a fixed `0.02` units), with simultaneously held pan keys
combining additively, on top of the orbit contribution. -/
theorem pan_adds_scaled_basis_offsets (s : Scene) (keys : List String)
    (hc : "ctrl" ∉ keys) :
    (handle_keyboard_inputs s keys).cam_pos
      = s.cam_pos
        + ((if "w" ∈ keys then (0.02 : ℝ) • s.cam_axis else 0)
          + (if "s" ∈ keys then -((0.02 : ℝ) • s.cam_axis) else 0)
          + (if "a" ∈ keys then (0.02 : ℝ) • sideAxisOf s else 0)
          + (if "d" ∈ keys then -((0.02 : ℝ) • sideAxisOf s) else 0)
          + (if " " ∈ keys then (0.02 : ℝ) • camUpOf s else 0)
          + (if "shift" ∈ keys then -((0.02 : ℝ) • camUpOf s) else 0))
        + orbitDelta s keys := by
  rw [handle_pos s keys hc, panDelta]

/-- Witness for the amended C3 at a concrete scene holding two pan keys. -/
theorem pan_adds_scaled_basis_offsets_witness :
    ("ctrl" : String) ∉ (["w", "a"] : List String)
      ∧ (handle_keyboard_inputs sWit ["w", "a"]).cam_pos
        = sWit.cam_pos
          + ((if "w" ∈ (["w", "a"] : List String) then (0.02 : ℝ) • sWit.cam_axis else 0)
            + (if "s" ∈ (["w", "a"] : List String) then -((0.02 : ℝ) • sWit.cam_axis) else 0)
            + (if "a" ∈ (["w", "a"] : List String) then (0.02 : ℝ) • sideAxisOf sWit else 0)
            + (if "d" ∈ (["w", "a"] : List String) then -((0.02 : ℝ) • sideAxisOf sWit) else 0)
            + (if " " ∈ (["w", "a"] : List String) then (0.02 : ℝ) • camUpOf sWit else 0)
            + (if "shift" ∈ (["w", "a"] : List String) then -((0.02 : ℝ) • camUpOf sWit) else 0))
          + orbitDelta sWit ["w", "a"] :=
  ⟨by decide, pan_adds_scaled_basis_offsets sWit ["w", "a"] (by decide)⟩

/-- Claim C2 fails as stated: a single orbit step does not preserve the
camera-to-focus distance.  At the unit-distance pose `sWit`, one left-orbit
invocation moves the camera perpendicular to the focus offset by the full
chord length, so the distance strictly grows to `sqrt(1 + chord^2)`. -/
theorem orbit_step_distance_not_preserved_cex :
    camToFocusDist (handle_keyboard_inputs sWit ["left"]) ≠ camToFocusDist sWit := by
  have hp := handle_pos sWit ["left"] (by decide)
  have hpan : panDelta sWit ["left"] = 0 := by simp [panDelta]
  have horb : orbitDelta sWit ["left"] = moveDist 1 • vector 0 (-1) 0 := by
    simp [orbitDelta, moveDistOf, sWit_axis_mag, sWit_norm_side]
  have hv : (handle_keyboard_inputs sWit ["left"]).center
      - (handle_keyboard_inputs sWit ["left"]).cam_pos
      = vector (-1) (moveDist 1) 0 := by
    rw [handle_center, hp, hpan, horb]
    ext <;> simp [sWit, vector]
  rw [camToFocusDist, hv, sWit_dist, mag_vector]
  intro heq
  have harg : ((-1 : ℝ) * (-1) + moveDist 1 * moveDist 1 + 0 * 0)
      = 1 + moveDist 1 ^ 2 := by ring
  rw [harg] at heq
  have h1 : (0 : ℝ) ≤ 1 + moveDist 1 ^ 2 := by positivity
  have h2 := Real.sq_sqrt h1
  rw [heq] at h2
  have hmd := moveDist_pos (one_ne_zero (α := ℝ))
  nlinarith [hmd, h2]

/-- Claim C2 (amended): for a consistent, nondegenerate camera pose and a
held-key set holding exactly one orbit key and nothing else, one invocation
changes the squared camera-to-focus distance by exactly the squared chord
length: the new distance is `sqrt(d^2 + chord^2)`, strictly larger than `d`,
rather than equal to `d`. -/
theorem orbit_step_distance_squared_gain (s : Scene) (keys : List String)
    (hcons : s.cam_axis = s.center - s.cam_pos)
    (hside : sideAxisOf s ≠ 0)
    (hc : "ctrl" ∉ keys)
    (hw : "w" ∉ keys) (hs : "s" ∉ keys) (ha : "a" ∉ keys) (hd : "d" ∉ keys)
    (hsp : " " ∉ keys) (hsh : "shift" ∉ keys)
    (hq : "q" ∉ keys) (he : "e" ∉ keys)
    (horb : ("left" ∈ keys ∧ "right" ∉ keys ∧ "up" ∉ keys ∧ "down" ∉ keys)
      ∨ ("right" ∈ keys ∧ "left" ∉ keys ∧ "up" ∉ keys ∧ "down" ∉ keys)
      ∨ ("up" ∈ keys ∧ "down" ∉ keys ∧ "left" ∉ keys ∧ "right" ∉ keys)
      ∨ ("down" ∈ keys ∧ "up" ∉ keys ∧ "left" ∉ keys ∧ "right" ∉ keys)) :
    camToFocusDist (handle_keyboard_inputs s keys) ^ 2
      = camToFocusDist s ^ 2 + moveDistOf s ^ 2 := by
  have hpan : panDelta s keys = 0 := by
    simp [panDelta, hw, hs, ha, hd, hsp, hsh]
  have hp := handle_pos s keys hc
  have hcen := handle_center s keys
  have huS : (sideAxisOf s).norm.dot (sideAxisOf s).norm = 1 :=
    dot_norm_self_one hside
  have hwS : (sideAxisOf s).norm.dot (s.center - s.cam_pos) = 0 := by
    rw [← hcons, Vec3.dot_norm_left, sideAxisOf_dot_axis, mul_zero]
  have hcu := camUpOf_ne_zero hside
  have huU : (camUpOf s).norm.dot (camUpOf s).norm = 1 := dot_norm_self_one hcu
  have hwU : (camUpOf s).norm.dot (s.center - s.cam_pos) = 0 := by
    rw [← hcons, Vec3.dot_norm_left, camUpOf_dot_axis, mul_zero]
  have hroll := rolledUpOf_no_roll s keys hq he
  rcases horb with ⟨h1, h2, h3, h4⟩ | ⟨h1, h2, h3, h4⟩ | ⟨h1, h2, h3, h4⟩ | ⟨h1, h2, h3, h4⟩
  · have hΔ : orbitDelta s keys = moveDistOf s • (sideAxisOf s).norm := by
      simp [orbitDelta, h1, h2, h3, h4]
    have hform : (handle_keyboard_inputs s keys).center
        - (handle_keyboard_inputs s keys).cam_pos
        = (s.center - s.cam_pos) - moveDistOf s • (sideAxisOf s).norm := by
      rw [hcen, hp, hpan, hΔ]
      abel
    rw [camToFocusDist, hform, mag_sq_sub_smul _ _ _ huS hwS, camToFocusDist]
  · have hΔ : orbitDelta s keys = -(moveDistOf s • (sideAxisOf s).norm) := by
      simp [orbitDelta, h1, h2, h3, h4]
    have hform : (handle_keyboard_inputs s keys).center
        - (handle_keyboard_inputs s keys).cam_pos
        = (s.center - s.cam_pos) - (-(moveDistOf s)) • (sideAxisOf s).norm := by
      rw [hcen, hp, hpan, hΔ, neg_smul]
      abel
    rw [camToFocusDist, hform, mag_sq_sub_smul _ _ _ huS hwS, neg_sq, camToFocusDist]
  · have hΔ : orbitDelta s keys = moveDistOf s • (camUpOf s).norm := by
      simp [orbitDelta, h1, h2, h3, h4, hroll]
    have hform : (handle_keyboard_inputs s keys).center
        - (handle_keyboard_inputs s keys).cam_pos
        = (s.center - s.cam_pos) - moveDistOf s • (camUpOf s).norm := by
      rw [hcen, hp, hpan, hΔ]
      abel
    rw [camToFocusDist, hform, mag_sq_sub_smul _ _ _ huU hwU, camToFocusDist]
  · have hΔ : orbitDelta s keys = -(moveDistOf s • (camUpOf s).norm) := by
      simp [orbitDelta, h1, h2, h3, h4, hroll]
    have hform : (handle_keyboard_inputs s keys).center
        - (handle_keyboard_inputs s keys).cam_pos
        = (s.center - s.cam_pos) - (-(moveDistOf s)) • (camUpOf s).norm := by
      rw [hcen, hp, hpan, hΔ, neg_smul]
      abel
    rw [camToFocusDist, hform, mag_sq_sub_smul _ _ _ huU hwU, neg_sq, camToFocusDist]

/-- Witness for the amended C2 at the unit-distance pose with one left-orbit
key held. -/
theorem orbit_step_distance_squared_gain_witness :
    (sWit.cam_axis = sWit.center - sWit.cam_pos
      ∧ sideAxisOf sWit ≠ 0
      ∧ ("ctrl" : String) ∉ (["left"] : List String)
      ∧ ("left" : String) ∈ (["left"] : List String))
      ∧ camToFocusDist (handle_keyboard_inputs sWit ["left"]) ^ 2
        = camToFocusDist sWit ^ 2 + moveDistOf sWit ^ 2 :=
  ⟨⟨sWit_cons, sWit_side_ne, by decide, by decide⟩,
    orbit_step_distance_squared_gain sWit ["left"] sWit_cons sWit_side_ne
      (by decide) (by decide) (by decide) (by decide) (by decide) (by decide)
      (by decide) (by decide) (by decide)
      (Or.inl ⟨by decide, by decide, by decide, by decide⟩)⟩

/-- Claim C5: for a consistent, nondegenerate pose with camera-to-focus
distance `d` and a held-key set holding a single orbit key and nothing else,
one invocation translates the camera by exactly `sqrt(2 d^2 - 2 d^2 cos 1°)`
along the unit side-axis direction (left/right, plus/minus) or the unit
up-axis direction (up/down, plus/minus), and then re-aims the camera axis at
the focus point: the new axis is the vector from the new position to the
focus; at `d = 17.32` the step length is approximately `0.3023`. -/
theorem orbit_step_chord_translation (s : Scene) (keys : List String)
    (hcons : s.cam_axis = s.center - s.cam_pos)
    (hside : sideAxisOf s ≠ 0)
    (hc : "ctrl" ∉ keys)
    (hw : "w" ∉ keys) (hs : "s" ∉ keys) (ha : "a" ∉ keys) (hd : "d" ∉ keys)
    (hsp : " " ∉ keys) (hsh : "shift" ∉ keys)
    (hq : "q" ∉ keys) (he : "e" ∉ keys) :
    (("left" ∈ keys ∧ "right" ∉ keys ∧ "up" ∉ keys ∧ "down" ∉ keys →
        (handle_keyboard_inputs s keys).cam_pos
          = s.cam_pos + moveDist (camToFocusDist s) • (sideAxisOf s).norm
        ∧ (handle_keyboard_inputs s keys).cam_axis
          = s.center - (handle_keyboard_inputs s keys).cam_pos)
      ∧ ("right" ∈ keys ∧ "left" ∉ keys ∧ "up" ∉ keys ∧ "down" ∉ keys →
          (handle_keyboard_inputs s keys).cam_pos
            = s.cam_pos - moveDist (camToFocusDist s) • (sideAxisOf s).norm
          ∧ (handle_keyboard_inputs s keys).cam_axis
            = s.center - (handle_keyboard_inputs s keys).cam_pos)
      ∧ ("up" ∈ keys ∧ "down" ∉ keys ∧ "left" ∉ keys ∧ "right" ∉ keys →
          (handle_keyboard_inputs s keys).cam_pos
            = s.cam_pos + moveDist (camToFocusDist s) • (camUpOf s).norm
          ∧ (handle_keyboard_inputs s keys).cam_axis
            = s.center - (handle_keyboard_inputs s keys).cam_pos)
      ∧ ("down" ∈ keys ∧ "up" ∉ keys ∧ "left" ∉ keys ∧ "right" ∉ keys →
          (handle_keyboard_inputs s keys).cam_pos
            = s.cam_pos - moveDist (camToFocusDist s) • (camUpOf s).norm
          ∧ (handle_keyboard_inputs s keys).cam_axis
            = s.center - (handle_keyboard_inputs s keys).cam_pos))
      ∧ (sideAxisOf s).norm.mag = 1
      ∧ (camUpOf s).norm.mag = 1
      ∧ |moveDist 17.32 - 0.3023| < 0.0001 := by
  have hpan : panDelta s keys = 0 := by
    simp [panDelta, hw, hs, ha, hd, hsp, hsh]
  have hp := handle_pos s keys hc
  have hroll := rolledUpOf_no_roll s keys hq he
  have hdd : moveDistOf s = moveDist (camToFocusDist s) := by
    rw [moveDistOf, hcons, camToFocusDist]
  refine ⟨⟨?_, ?_, ?_, ?_⟩, Vec3.mag_norm hside,
    Vec3.mag_norm (camUpOf_ne_zero hside), moveDist_approx⟩
  · rintro ⟨h1, h2, h3, h4⟩
    have hΔ : orbitDelta s keys = moveDistOf s • (sideAxisOf s).norm := by
      simp [orbitDelta, h1, h2, h3, h4]
    constructor
    · rw [hp, hpan, hΔ, hdd]
      abel
    · rw [handle_axis s keys hc, if_pos (show anyOrbit keys from Or.inl ⟨h1, h2⟩), ← hp]
  · rintro ⟨h1, h2, h3, h4⟩
    have hΔ : orbitDelta s keys = -(moveDistOf s • (sideAxisOf s).norm) := by
      simp [orbitDelta, h1, h2, h3, h4]
    constructor
    · rw [hp, hpan, hΔ, hdd]
      abel
    · rw [handle_axis s keys hc, if_pos (show anyOrbit keys from Or.inr (Or.inl ⟨h1, h2⟩)), ← hp]
  · rintro ⟨h1, h2, h3, h4⟩
    have hΔ : orbitDelta s keys = moveDistOf s • (camUpOf s).norm := by
      simp [orbitDelta, h1, h2, h3, h4, hroll]
    constructor
    · rw [hp, hpan, hΔ, hdd]
      abel
    · rw [handle_axis s keys hc, if_pos (show anyOrbit keys from Or.inr (Or.inr (Or.inl ⟨h1, h2⟩))), ← hp]
  · rintro ⟨h1, h2, h3, h4⟩
    have hΔ : orbitDelta s keys = -(moveDistOf s • (camUpOf s).norm) := by
      simp [orbitDelta, h1, h2, h3, h4, hroll]
    constructor
    · rw [hp, hpan, hΔ, hdd]
      abel
    · rw [handle_axis s keys hc, if_pos (show anyOrbit keys from Or.inr (Or.inr (Or.inr ⟨h1, h2⟩))), ← hp]

/-- Witness for C5 at the unit-distance pose with the left-orbit key held. -/
theorem orbit_step_chord_translation_witness :
    (sWit.cam_axis = sWit.center - sWit.cam_pos
      ∧ sideAxisOf sWit ≠ 0
      ∧ ("left" : String) ∈ (["left"] : List String)
      ∧ ("ctrl" : String) ∉ (["left"] : List String))
      ∧ ((handle_keyboard_inputs sWit ["left"]).cam_pos
          = sWit.cam_pos + moveDist (camToFocusDist sWit) • (sideAxisOf sWit).norm
        ∧ (handle_keyboard_inputs sWit ["left"]).cam_axis
          = sWit.center - (handle_keyboard_inputs sWit ["left"]).cam_pos
        ∧ |moveDist 17.32 - 0.3023| < 0.0001) := by
  have hmain := orbit_step_chord_translation sWit ["left"] sWit_cons sWit_side_ne
    (by decide) (by decide) (by decide) (by decide) (by decide) (by decide)
    (by decide) (by decide) (by decide)
  have hleft := hmain.1.1 ⟨by decide, by decide, by decide, by decide⟩
  exact ⟨⟨sWit_cons, sWit_side_ne, by decide, by decide⟩,
    hleft.1, hleft.2, hmain.2.2.2⟩

/-- Claim C4 fails as stated on its position part: holding a roll key can
change the camera position within the same invocation, because the vertical
orbit branches translate along the rolled up vector.  At the unit pose,
holding q together with the up arrow yields a different position than the up
arrow alone. -/
theorem roll_affects_position_with_vertical_orbit_cex :
    (handle_keyboard_inputs sWit ["q", "up"]).cam_pos
      ≠ (handle_keyboard_inputs sWit ["up"]).cam_pos := by
  have hmag001 : (vector 0 0 1 : Vec3).mag = 1 := by
    rw [mag_vector]
    norm_num [Real.sqrt_one]
  have hp1 := handle_pos sWit ["q", "up"] (by decide)
  have hp2 := handle_pos sWit ["up"] (by decide)
  have hpan1 : panDelta sWit ["q", "up"] = 0 := by simp [panDelta]
  have hpan2 : panDelta sWit ["up"] = 0 := by simp [panDelta]
  have hroll2 : rolledUpOf sWit ["up"] = camUpOf sWit := by simp [rolledUpOf]
  have horb2 : orbitDelta sWit ["up"] = moveDist 1 • vector 0 0 1 := by
    simp [orbitDelta, moveDistOf, sWit_axis_mag, hroll2, sWit_camUp,
      norm_of_mag_one hmag001]
  have hnormaxis : sWit.cam_axis.norm = vector (-1) 0 0 :=
    norm_of_mag_one sWit_axis_mag
  have hrotval : (camUpOf sWit).rotate (-(radians 1.0)) sWit.cam_axis
      = vector 0 (-(Real.sin (radians 1.0))) (Real.cos (radians 1.0)) := by
    rw [sWit_camUp, Vec3.rotate, hnormaxis]
    ext <;> simp [Vec3.cross, Vec3.dot, vector, Real.cos_neg, Real.sin_neg]
  have hmagrot : (vector 0 (-(Real.sin (radians 1.0)))
      (Real.cos (radians 1.0)) : Vec3).mag = 1 := by
    rw [mag_vector]
    rw [show (0 : ℝ) * 0 + -(Real.sin (radians 1.0)) * -(Real.sin (radians 1.0))
        + Real.cos (radians 1.0) * Real.cos (radians 1.0)
        = Real.sin (radians 1.0) ^ 2 + Real.cos (radians 1.0) ^ 2 by ring]
    rw [Real.sin_sq_add_cos_sq, Real.sqrt_one]
  have hroll1 : rolledUpOf sWit ["q", "up"]
      = vector 0 (-(Real.sin (radians 1.0))) (Real.cos (radians 1.0)) := by
    have hq1 : ("q" : String) ∈ (["q", "up"] : List String) ∧
        ("e" : String) ∉ (["q", "up"] : List String) := by decide
    have he1 : ¬(("e" : String) ∈ (["q", "up"] : List String) ∧
        ("q" : String) ∉ (["q", "up"] : List String)) := by decide
    simp only [rolledUpOf]
    rw [if_neg he1, if_pos hq1, hrotval, sWit_axis_mag, withMag_of_mag_one hmagrot]
  have horb1 : orbitDelta sWit ["q", "up"]
      = moveDist 1 • vector 0 (-(Real.sin (radians 1.0))) (Real.cos (radians 1.0)) := by
    simp [orbitDelta, moveDistOf, sWit_axis_mag, hroll1, norm_of_mag_one hmagrot]
  intro heq
  have hy := congrArg Vec3.y heq
  rw [hp1, hp2, hpan1, hpan2, horb1, horb2] at hy
  simp [sWit, vector] at hy
  have hmd := moveDist_pos (one_ne_zero (α := ℝ))
  have hsin : 0 < Real.sin (radians 1.0) := by
    rw [radians_one]
    exact Real.sin_pos_of_pos_of_lt_pi (by positivity) (by nlinarith [Real.pi_pos])
  rcases hy with hy | hy
  · nlinarith [hmd]
  · nlinarith [hsin]

/-- Claim C4 (amended): without ctrl, the roll section leaves the scene up
vector unchanged when both or neither roll key is held; when exactly one is
held it writes the camera-relative up basis vector rotated by exactly one
degree about the camera axis (their dot product equals the product of the
magnitudes with cos 1°), rescaled to the magnitude of the camera axis; and
the roll keys leave the camera position unchanged provided no vertical orbit
key is held in the same invocation (with a vertical orbit key, the rolled up
vector tilts the orbit displacement, which is what the counterexample
exhibits). -/
theorem roll_rotates_camera_relative_up (s : Scene) (keys : List String)
    (hc : "ctrl" ∉ keys) :
    (("q" ∈ keys ↔ "e" ∈ keys) → (handle_keyboard_inputs s keys).up = s.up)
      ∧ ("q" ∈ keys ∧ "e" ∉ keys →
          (handle_keyboard_inputs s keys).up
            = ((camUpOf s).rotate (-(radians 1.0)) s.cam_axis).withMag s.cam_axis.mag
          ∧ (camUpOf s).dot (handle_keyboard_inputs s keys).up
            = (camUpOf s).mag * (handle_keyboard_inputs s keys).up.mag
              * Real.cos (radians 1.0)
          ∧ (sideAxisOf s ≠ 0 →
              (handle_keyboard_inputs s keys).up.mag = s.cam_axis.mag))
      ∧ ("e" ∈ keys ∧ "q" ∉ keys →
          (handle_keyboard_inputs s keys).up
            = ((camUpOf s).rotate (radians 1.0) s.cam_axis).withMag s.cam_axis.mag
          ∧ (camUpOf s).dot (handle_keyboard_inputs s keys).up
            = (camUpOf s).mag * (handle_keyboard_inputs s keys).up.mag
              * Real.cos (radians 1.0)
          ∧ (sideAxisOf s ≠ 0 →
              (handle_keyboard_inputs s keys).up.mag = s.cam_axis.mag))
      ∧ ("up" ∉ keys → "down" ∉ keys →
          (handle_keyboard_inputs s keys).cam_pos
            = (handle_keyboard_inputs s
                (keys.filter fun k => !(k == "q" || k == "e"))).cam_pos) := by
  have hup := handle_up s keys hc
  refine ⟨?_, ?_, ?_, ?_⟩
  · intro hiff
    rw [hup]
    by_cases hq : "q" ∈ keys
    · have he := hiff.mp hq
      rw [if_neg (fun hcontra => hcontra.2 he), if_neg (fun hcontra => hcontra.2 hq)]
    · have he : "e" ∉ keys := fun he => hq (hiff.mpr he)
      rw [if_neg (fun hcontra => hq hcontra.1), if_neg (fun hcontra => he hcontra.1)]
  · intro hqe
    have hupv : (handle_keyboard_inputs s keys).up
        = ((camUpOf s).rotate (-(radians 1.0)) s.cam_axis).withMag s.cam_axis.mag := by
      rw [hup, if_pos hqe]
    refine ⟨hupv, ?_, ?_⟩
    · rw [hupv]
      exact roll_dot_cos s (-(radians 1.0)) |>.trans (by rw [Real.cos_neg])
    · intro hside
      rw [hupv]
      exact roll_mag s (-(radians 1.0)) hside
  · intro hqe
    have hupv : (handle_keyboard_inputs s keys).up
        = ((camUpOf s).rotate (radians 1.0) s.cam_axis).withMag s.cam_axis.mag := by
      rw [hup, if_neg (fun hcontra => hcontra.2 hqe.1), if_pos hqe]
    refine ⟨hupv, ?_, ?_⟩
    · rw [hupv]
      exact roll_dot_cos s (radians 1.0)
    · intro hside
      rw [hupv]
      exact roll_mag s (radians 1.0) hside
  · intro hu hd2
    have hcf : "ctrl" ∉ keys.filter fun k => !(k == "q" || k == "e") := by
      rw [filter_roll_mem keys "ctrl" (by decide) (by decide)]
      exact hc
    rw [handle_pos s keys hc, handle_pos s _ hcf]
    have hpaneq : panDelta s (keys.filter fun k => !(k == "q" || k == "e"))
        = panDelta s keys := by
      simp only [panDelta,
        filter_roll_mem keys "w" (by decide) (by decide),
        filter_roll_mem keys "s" (by decide) (by decide),
        filter_roll_mem keys "a" (by decide) (by decide),
        filter_roll_mem keys "d" (by decide) (by decide),
        filter_roll_mem keys " " (by decide) (by decide),
        filter_roll_mem keys "shift" (by decide) (by decide)]
    have hupf : "up" ∉ keys.filter fun k => !(k == "q" || k == "e") := by
      rw [filter_roll_mem keys "up" (by decide) (by decide)]
      exact hu
    have hdownf : "down" ∉ keys.filter fun k => !(k == "q" || k == "e") := by
      rw [filter_roll_mem keys "down" (by decide) (by decide)]
      exact hd2
    have horbeq : orbitDelta s (keys.filter fun k => !(k == "q" || k == "e"))
        = orbitDelta s keys := by
      simp only [orbitDelta,
        filter_roll_mem keys "left" (by decide) (by decide),
        filter_roll_mem keys "right" (by decide) (by decide)]
      simp [hu, hd2, hupf, hdownf]
    rw [hpaneq, horbeq]

/-- Witness for the amended C4 at the unit pose with only the q key held. -/
theorem roll_rotates_camera_relative_up_witness :
    (("ctrl" : String) ∉ (["q"] : List String)
      ∧ ("q" : String) ∈ (["q"] : List String)
      ∧ ("e" : String) ∉ (["q"] : List String)
      ∧ sideAxisOf sWit ≠ 0)
      ∧ ((handle_keyboard_inputs sWit ["q"]).up
          = ((camUpOf sWit).rotate (-(radians 1.0)) sWit.cam_axis).withMag
              sWit.cam_axis.mag
        ∧ (camUpOf sWit).dot (handle_keyboard_inputs sWit ["q"]).up
          = (camUpOf sWit).mag * (handle_keyboard_inputs sWit ["q"]).up.mag
            * Real.cos (radians 1.0)
        ∧ (handle_keyboard_inputs sWit ["q"]).up.mag = sWit.cam_axis.mag
        ∧ (handle_keyboard_inputs sWit ["q"]).cam_pos
          = (handle_keyboard_inputs sWit
              ((["q"] : List String).filter fun k => !(k == "q" || k == "e"))).cam_pos) := by
  have hmain := roll_rotates_camera_relative_up sWit ["q"] (by decide)
  have hq := hmain.2.1 ⟨by decide, by decide⟩
  exact ⟨⟨by decide, by decide, by decide, sWit_side_ne⟩,
    hq.1, hq.2.1, hq.2.2 sWit_side_ne, hmain.2.2.2 (by decide) (by decide)⟩

/-- Claim C8: for every configuration, `init_canvas` disables the native pan
control while leaving native zoom and free-spin rotate enabled, places the
camera at `(10, 10, 10)` (equidistant from the origin on all three axes),
and returns a grid-overlay handle whose visibility is false exactly when the
`grid` argument is false. -/
theorem init_canvas_control_settings (s0 : CanvasState) (h w : ℕ)
    (t c : String) (g : Bool) :
    (init_canvas s0 h w t c g).1.userpan = false
      ∧ (init_canvas s0 h w t c g).1.userzoom = true
      ∧ (init_canvas s0 h w t c g).1.userspin = true
      ∧ (init_canvas s0 h w t c g).1.cam_pos = vector 10 10 10
      ∧ ((init_canvas s0 h w t c g).1.cam_pos.x = (init_canvas s0 h w t c g).1.cam_pos.y
        ∧ (init_canvas s0 h w t c g).1.cam_pos.y = (init_canvas s0 h w t c g).1.cam_pos.z)
      ∧ ((init_canvas s0 h w t c g).2.visible = false ↔ g = false) := by
  unfold init_canvas convert_grid_to_z_up setup_ui_controls append_to_caption
    GraphicsGrid.init GraphicsGrid.set_visibility
  by_cases ht : t ≠ "" <;> by_cases hcap : c ≠ "" <;> cases g <;>
    simp [ht, hcap, vector]

/-- Claim C9 fails as stated: the three arrows drawn by
`draw_reference_frame_axes` have length `0.25`, not unit length, and their
own axis parameters are the world basis vectors, not the local axes of the
pose (the grouping compound is what carries the pose orientation); both
parts fail at a pose rotated 90 degrees about z. -/
theorem reference_frame_arrows_not_unit_cex :
    (draw_reference_frame_axes poseZ90).arrows.map Arrow.length ≠ [1, 1, 1]
      ∧ (draw_reference_frame_axes poseZ90).arrows.map Arrow.axis
        ≠ [get_pose_x_vec poseZ90, get_pose_y_vec poseZ90, poseZ90.zcol] := by
  constructor
  · intro hcontra
    have h1 := congrArg (fun l => l.head?) hcontra
    simp [draw_reference_frame_axes] at h1
    norm_num at h1
  · intro hcontra
    have h1 := congrArg (fun l => l.head?) hcontra
    simp [draw_reference_frame_axes, get_pose_x_vec, poseZ90, x_axis_vector] at h1
    have hx := congrArg Vec3.x h1
    simp [vector] at hx

/-- Claim C9 (amended): for every pose, `draw_reference_frame_axes` draws
three arrows of length `0.25` from the pose origin, coloured red, green and
blue, with axis parameters the world x, y, z basis vectors, and groups them
into one compound anchored at the pose origin whose axis and up are set to
the local x and y directions of the pose (which is what orients the group to
the pose). -/
theorem reference_frame_arrows_spec (se3_pose : SE3) :
    (draw_reference_frame_axes se3_pose).arrows
      = [⟨get_pose_pos se3_pose, x_axis_vector, 0.25, Color.red⟩,
        ⟨get_pose_pos se3_pose, y_axis_vector, 0.25, Color.green⟩,
        ⟨get_pose_pos se3_pose, z_axis_vector, 0.25, Color.blue⟩]
      ∧ (draw_reference_frame_axes se3_pose).origin = get_pose_pos se3_pose
      ∧ (draw_reference_frame_axes se3_pose).axis = get_pose_x_vec se3_pose
      ∧ (draw_reference_frame_axes se3_pose).up = get_pose_y_vec se3_pose :=
  ⟨rfl, rfl, rfl, rfl⟩

end
